import Mathlib

/-!
Verification development for the EnsoAI worktree-merge subsystem.

The TypeScript sources are shallowly embedded:
* JavaScript strings are modelled as lists of characters (`Str`), so that
  `split`, `startsWith`, `substring` and first-occurrence `replace` have
  exact counterparts (`splitOnChar`, `jsStartsWith`, `List.drop`,
  `jsReplaceFirst`).
* External processes (the git CLI, `child_process.spawn`) are modelled as
  oracles passed in as function arguments; the embedded functions record
  the commands they issue so that non-invocation claims are expressible.
* React state setters are modelled as explicit state-record updates.
-/

/-- A JavaScript string, modelled as its list of characters. -/
abbrev Str := List Char

/-- Helper for `jsStartsWith`, recursive on the pattern. -/
def startsWithAux : Str → Str → Bool
  | [], _ => true
  | _ :: _, [] => false
  | p :: ps, c :: cs => (c == p) && startsWithAux ps cs

/-- Embeds JavaScript `s.startsWith(pat)`. -/
def jsStartsWith (s pat : Str) : Bool := startsWithAux pat s

/-- Helper for `jsReplaceFirst`: scans `s` left to right and replaces the
first occurrence of `pat` (assumed non-empty) with `rep`. -/
def replaceFirstGo (pat rep : Str) : Str → Str
  | [] => []
  | c :: cs =>
      if jsStartsWith (c :: cs) pat then rep ++ (c :: cs).drop pat.length
      else c :: replaceFirstGo pat rep cs

/-- Embeds JavaScript `s.replace(pat, rep)` with a string pattern: only the
FIRST occurrence of `pat` anywhere in `s` is replaced. -/
def jsReplaceFirst (s pat rep : Str) : Str :=
  if pat = [] then rep ++ s else replaceFirstGo pat rep s

/-- Does `pat` occur as a contiguous subsequence of `s`?  Embeds
JavaScript `s.includes(pat)`. -/
def containsSeq : Str → Str → Bool
  | [], pat => pat == []
  | c :: cs, pat => jsStartsWith (c :: cs) pat || containsSeq cs pat

/-- Embeds JavaScript `s.split(sep)` for a single-character separator. -/
def splitOnChar (sep : Char) : Str → List Str
  | [] => [[]]
  | c :: cs =>
      let rest := splitOnChar sep cs
      if c = sep then [] :: rest
      else
        match rest with
        | r :: rs => (c :: r) :: rs
        | [] => [[c]]

/-- `GitWorktree` record produced by `WorktreeService.list`
(src/main/services/git/WorktreeService.ts).  `head` and `branch` stay
`undefined` when the porcelain record has no such line, hence `Option`. -/
structure GitWorktree where
  path : Str
  head : Option Str
  branch : Option Str
  isMainWorktree : Bool
  isLocked : Bool
  prunable : Bool
deriving DecidableEq, Repr

/-- The `current: Partial<GitWorktree>` accumulator of the parsing loop. -/
structure PartialWorktree where
  path : Option Str
  head : Option Str
  branch : Option Str
  isMainWorktree : Bool
  isLocked : Bool
  prunable : Bool
deriving DecidableEq, Repr

/-- `current = {}` at the top of `WorktreeService.list`. -/
def emptyPartial : PartialWorktree :=
  ⟨none, none, none, false, false, false⟩

/-- The fresh record built when a `worktree ` line is read. -/
def newPartial (p : Str) : PartialWorktree :=
  ⟨some p, none, none, false, false, false⟩

/-- `if (current.path) worktrees.push(current as GitWorktree)`: a record is
emitted only when its `path` is set and truthy (non-empty). -/
def pushCurrent (acc : List GitWorktree) (c : PartialWorktree) : List GitWorktree :=
  match c.path with
  | some p =>
      if p = [] then acc
      else acc ++ [⟨p, c.head, c.branch, c.isMainWorktree, c.isLocked, c.prunable⟩]
  | none => acc

/-- One iteration of the `for (const line of result.split('\n'))` loop of
`WorktreeService.list`. -/
def stepLine (st : List GitWorktree × PartialWorktree) (line : Str) :
    List GitWorktree × PartialWorktree :=
  let acc := st.1
  let current := st.2
  if jsStartsWith line ("worktree ".toList) then
    (pushCurrent acc current, newPartial (line.drop 9))
  else if jsStartsWith line ("HEAD ".toList) then
    (acc, { current with head := some (line.drop 5) })
  else if jsStartsWith line ("branch ".toList) then
    (acc, { current with
      branch := some (jsReplaceFirst (line.drop 7) ("refs/heads/".toList) []) })
  else if line = "bare".toList then
    (acc, { current with isMainWorktree := true })
  else if line = "locked".toList then
    (acc, { current with isLocked := true })
  else if line = "prunable".toList then
    (acc, { current with prunable := true })
  else
    (acc, current)

/-- The records accumulated by the loop, including the final
`if (current.path) worktrees.push(...)`, BEFORE the first record is forced
to be the main worktree. -/
def rawRecords (lines : List Str) : List GitWorktree :=
  let st := lines.foldl stepLine ([], emptyPartial)
  pushCurrent st.1 st.2

/-- `if (worktrees.length > 0) worktrees[0].isMainWorktree = true`. -/
def setFirstMain : List GitWorktree → List GitWorktree
  | [] => []
  | w :: ws => { w with isMainWorktree := true } :: ws

namespace WorktreeService

/-- Embeds `WorktreeService.list`, as a function of the porcelain text
returned by `git worktree list --porcelain`. -/
def list (porcelain : Str) : List GitWorktree :=
  setFirstMain (rawRecords (splitOnChar '\n' porcelain))

end WorktreeService

/-- The record-emitting lines of a porcelain listing: those that begin with
`worktree ` and have a non-empty remainder; the remainder is the path. -/
def recordPath (line : Str) : Option Str :=
  if jsStartsWith line ("worktree ".toList) && !(line.drop 9).isEmpty then
    some (line.drop 9)
  else none

/-! ## Shared merge types (src/shared/types and part_000) -/

/-- JavaScript truthiness of a `string | null | undefined` value: `none`
models `null`/`undefined`; the empty string is also falsy. -/
def jsTruthyStr : Option String → Bool
  | none => false
  | some s => !s.isEmpty

inductive MergeStrategy
  | merge | squash | rebase
deriving DecidableEq, Repr

inductive StashStatus
  | none | stashed | applied | conflict
deriving DecidableEq, Repr

inductive ConflictType
  | content | binary | rename | delete
deriving DecidableEq, Repr

structure MergeConflict where
  file : String
  type : ConflictType
deriving DecidableEq, Repr

/-- `WorktreeMergeOptions`: the input of a merge attempt.  Optional fields
of the TypeScript interface are `Option`s (`none` = `undefined`). -/
structure WorktreeMergeOptions where
  worktreePath : String
  targetBranch : String
  strategy : MergeStrategy
  noFf : Option Bool := Option.none
  message : Option String := Option.none
  deleteWorktreeAfterMerge : Option Bool := Option.none
  deleteBranchAfterMerge : Option Bool := Option.none
  autoStash : Option Bool := Option.none
deriving DecidableEq, Repr

/-- `WorktreeMergeResult`: the output of any merge-engine call. -/
structure WorktreeMergeResult where
  success : Bool
  merged : Bool
  conflicts : Option (List MergeConflict) := Option.none
  commitHash : Option String := Option.none
  error : Option String := Option.none
  warnings : Option (List String) := Option.none
  mainStashStatus : Option StashStatus := Option.none
  worktreeStashStatus : Option StashStatus := Option.none
  mainWorktreePath : Option String := Option.none
  worktreePath : Option String := Option.none
deriving DecidableEq, Repr

/-- `WorktreeMergeCleanupOptions`: the cleanup snapshot carried from the
conflicted merge to the later `continueMerge` call. -/
structure WorktreeMergeCleanupOptions where
  worktreePath : Option String := Option.none
  sourceBranch : Option String := Option.none
  deleteWorktreeAfterMerge : Option Bool := Option.none
  deleteBranchAfterMerge : Option Bool := Option.none
deriving DecidableEq, Repr

/-- The shared `Worktree` record used by the renderer (`branch` may be
`null` for a detached worktree). -/
structure Worktree where
  path : String
  head : String
  branch : Option String
  isMainWorktree : Bool
  isLocked : Bool
  prunable : Bool
deriving DecidableEq, Repr

/-! ## WorktreeService.remove (src/main/services/git/WorktreeService.ts)

The git CLI is an oracle `run : List String → Except String Unit` (the
`this.git.raw` call, which throws on failure).  The embedded `remove`
returns the propagated result together with the ordered list of commands it
actually issued. -/

/-- The argument vector of the `worktree remove` invocation built by
`WorktreeService.remove`. -/
def removeArgs (path : String) (force : Option Bool) : List String :=
  ["worktree", "remove"] ++ (if force.getD false then ["--force"] else []) ++ [path]

structure WorktreeRemoveOptions where
  path : String
  force : Option Bool := Option.none
  deleteBranch : Option Bool := Option.none
  branch : Option String := Option.none
deriving DecidableEq, Repr

namespace WorktreeService

/-- Embeds `WorktreeService.remove`: runs `worktree remove [--force] path`,
and afterwards `branch -D <branch>` exactly when `deleteBranch` and a
truthy `branch` are both present.  Returns (result, issued commands). -/
def remove (run : List String → Except String Unit) (opts : WorktreeRemoveOptions) :
    Except String Unit × List (List String) :=
  match run (removeArgs opts.path opts.force) with
  | .error e => (.error e, [removeArgs opts.path opts.force])
  | .ok _ =>
      if opts.deleteBranch.getD false && jsTruthyStr opts.branch then
        (run ["branch", "-D", opts.branch.getD ""],
         [removeArgs opts.path opts.force, ["branch", "-D", opts.branch.getD ""]])
      else (.ok (), [removeArgs opts.path opts.force])

end WorktreeService

/-! ## gitShow / gitShowBuffer (src/unnamed/part_002)

`spawnGit` is modelled as an oracle mapping (workdir, ref) to the observable
outcome of the spawned process: either the `error` event fired, or `close`
fired with an exit code (`none` models a `null` code after a signal) and the
list of stdout data chunks. -/

inductive SpawnOutcome
  | errored
  | closed (code : Option Int) (chunks : List (List Nat))
deriving DecidableEq, Repr

/-- Embeds `gitShowBuffer`: resolves with the concatenated stdout chunks on
a zero exit code with at least one chunk, and with an empty buffer on the
`error` event, a non-zero (or null) exit code, or empty output.  The
function is total: every outcome resolves, none rejects. -/
def gitShowBuffer (spawn : String → String → SpawnOutcome) (workdir ref : String) :
    List Nat :=
  match spawn workdir ref with
  | .errored => []
  | .closed code chunks =>
      if code != some 0 || chunks.isEmpty then [] else chunks.flatten

/-- Embeds `decodeBuffer`: an empty buffer decodes to `""`; otherwise the
charset-detection + decode step (jschardet/iconv-lite, external libraries)
is the oracle `detect`. -/
def decodeBuffer (detect : List Nat → String) (buffer : List Nat) : String :=
  if buffer.isEmpty then "" else detect buffer

/-- Embeds `gitShow`. -/
def gitShow (detect : List Nat → String) (spawn : String → String → SpawnOutcome)
    (workdir ref : String) : String :=
  decodeBuffer detect (gitShowBuffer spawn workdir ref)

/-! ## Renderer merge handlers (src/renderer/App.tsx)

The pieces of React state the handlers touch are gathered in
`MergeUiState`; a `set*` call is a record update.  Backend mutations are
oracles, and each handler also returns the list of backend calls it issued,
so that "no git operation is invoked" is expressible. -/

structure MergeUiState where
  mergeDialogOpen : Bool
  mergeConflicts : Option WorktreeMergeResult
  pendingMergeOptions : Option WorktreeMergeCleanupOptions
deriving DecidableEq, Repr

/-- A call of the `mergeWorktree` backend mutation. -/
structure MergeCall where
  workdir : String
  options : WorktreeMergeOptions
deriving DecidableEq, Repr

/-- A call of the `continueMerge` backend mutation. -/
structure ContinueMergeCall where
  workdir : String
  message : String
  cleanupOptions : Option WorktreeMergeCleanupOptions
deriving DecidableEq, Repr

/-- Embeds `handleMerge` (App.tsx): with no repository selected it returns
the fixed failure result and performs no backend call; otherwise it
delegates to the `mergeWorktree` mutation. -/
def handleMerge (selectedRepo : Option String)
    (mutate : MergeCall → WorktreeMergeResult)
    (options : WorktreeMergeOptions) : WorktreeMergeResult × List MergeCall :=
  if !jsTruthyStr selectedRepo then
    ({ success := false, merged := false, error := some "No repository selected" }, [])
  else
    let call : MergeCall := ⟨selectedRepo.getD "", options⟩
    (mutate call, [call])

/-- The cleanup-options snapshot built by `handleMergeConflicts` from the
merge request and the worktree being merged (`mergeWorktree?.branch || ''`). -/
def mkCleanupSnapshot (options : WorktreeMergeOptions) (mergeWorktree : Option Worktree) :
    WorktreeMergeCleanupOptions :=
  { worktreePath := some options.worktreePath
    sourceBranch := some ((mergeWorktree.bind (·.branch)).getD "")
    deleteWorktreeAfterMerge := options.deleteWorktreeAfterMerge
    deleteBranchAfterMerge := options.deleteBranchAfterMerge }

/-- Embeds `handleMergeConflicts` (App.tsx): closes the merge dialog,
stores the conflicted result and the cleanup snapshot.  The rest of its
body only raises toasts; it issues no backend merge/remove call, expressed
by the empty `ContinueMergeCall` list. -/
def handleMergeConflicts (mergeWorktree : Option Worktree)
    (result : WorktreeMergeResult) (options : WorktreeMergeOptions)
    (st : MergeUiState) : MergeUiState × List ContinueMergeCall :=
  ({ st with
      mergeDialogOpen := false
      mergeConflicts := some result
      pendingMergeOptions := some (mkCleanupSnapshot options mergeWorktree) }, [])

/-- Embeds `handleCompleteMerge` (App.tsx): calls the `continueMerge`
mutation with `cleanupOptions = pendingMergeOptions || undefined`, and
clears `mergeConflicts` / `pendingMergeOptions` only when the result has
`success = true`. -/
def handleCompleteMerge (selectedRepo : Option String)
    (continueBackend : ContinueMergeCall → WorktreeMergeResult)
    (message : String) (st : MergeUiState) : MergeUiState × List ContinueMergeCall :=
  if !jsTruthyStr selectedRepo then (st, [])
  else
    let call : ContinueMergeCall := ⟨selectedRepo.getD "", message, st.pendingMergeOptions⟩
    let result := continueBackend call
    if result.success then
      ({ st with mergeConflicts := Option.none, pendingMergeOptions := Option.none }, [call])
    else (st, [call])

/-! ## Spec-modelled merge engine

The main-process IPC handlers behind the `mergeWorktree` and
`continueMerge` mutations are not part of the provided sources; only their
renderer-side callers are.  They are modelled here from spec section 4.3:
the outcome of the underlying git merge / commit command is an oracle, and
the engine's deletion side effects are returned as an explicit `GitOp`
list. -/

/-- A destructive git operation the merge engine may issue during cleanup. -/
inductive GitOp
  | removeWorktree (path : String)
  | deleteBranch (name : String)
deriving DecidableEq, Repr

/-- Outcome of the branch-integration command of a merge attempt. -/
inductive MergeCmdOutcome
  | conflicted (files : List MergeConflict)
  | clean (commitHash : String)
  | failed (err : String)
deriving DecidableEq, Repr

/-- Outcome of the final commit / continue command of `continueMerge`. -/
inductive ContinueOutcome
  | committed (commitHash : String)
  | stillConflicted (files : List MergeConflict)
  | failed (err : String)
deriving DecidableEq, Repr

/-- Modelled from the spec: step 6 of the merge algorithm (cleanup), "only
when merged=true: if deleteBranchAfterMerge, delete the source branch; if
deleteWorktreeAfterMerge, remove the source worktree". -/
def cleanupOps (worktreePath sourceBranch : String)
    (delBranch delWorktree : Bool) : List GitOp :=
  (if delBranch then [GitOp.deleteBranch sourceBranch] else []) ++
  (if delWorktree then [GitOp.removeWorktree worktreePath] else [])

/-- Modelled from the spec: the main-process merge engine entry
(`merge(request) → MergeResult`, spec 4.3 steps 3-6), missing from the
provided sources.  On conflicts it returns `success=true, merged=false`
with the conflict list and performs no cleanup; cleanup runs only on a
clean merge. -/
def mergeEngine (outcome : MergeCmdOutcome) (req : WorktreeMergeOptions)
    (sourceBranch : String) : WorktreeMergeResult × List GitOp :=
  match outcome with
  | .conflicted files =>
      ({ success := true, merged := false, conflicts := some files }, [])
  | .failed e => ({ success := false, merged := false, error := some e }, [])
  | .clean h =>
      ({ success := true, merged := true, commitHash := some h },
        cleanupOps req.worktreePath sourceBranch
          (req.deleteBranchAfterMerge.getD false) (req.deleteWorktreeAfterMerge.getD false))

/-- Modelled from the spec: the main-process `continueMerge` handler,
missing from the provided sources.  On a successful commit it runs the
cleanup of spec step 6 using the `cleanupOptions` snapshot; when unresolved
paths remain it returns `merged=false` again and performs no cleanup. -/
def continueMergeEngine (outcome : ContinueOutcome)
    (cleanupOptions : Option WorktreeMergeCleanupOptions) :
    WorktreeMergeResult × List GitOp :=
  match outcome with
  | .committed h =>
      ({ success := true, merged := true, commitHash := some h },
        match cleanupOptions with
        | some co =>
            cleanupOps (co.worktreePath.getD "") (co.sourceBranch.getD "")
              (co.deleteBranchAfterMerge.getD false) (co.deleteWorktreeAfterMerge.getD false)
        | Option.none => [])
  | .stillConflicted files =>
      ({ success := true, merged := false, conflicts := some files }, [])
  | .failed e => ({ success := false, merged := false, error := some e }, [])

/-! ## Concrete fixtures used by witness theorems -/

/-- A git runner whose branch deletion fails while everything else
succeeds. -/
def runBranchFails : List String → Except String Unit := fun args =>
  if args = ["branch", "-D", "feat"] then .error "branch deletion failed" else .ok ()

/-- A remove request asking for forced removal plus branch deletion. -/
def removeOptsFix : WorktreeRemoveOptions :=
  { path := "/repo/wt", force := some true, deleteBranch := some true, branch := some "feat" }

/-- A continueMerge backend that always fails. -/
def bkFail : ContinueMergeCall → WorktreeMergeResult := fun _ =>
  { success := false, merged := false }

/-- A continueMerge backend that always succeeds. -/
def bkOk : ContinueMergeCall → WorktreeMergeResult := fun _ =>
  { success := true, merged := true }

/-- A spawn oracle whose process always fires the `error` event. -/
def spawnErr : String → String → SpawnOutcome := fun _ _ => .errored

/-- A trivial decode oracle. -/
def detectFix : List Nat → String := fun _ => "decoded"

/-- A merge request with both cleanup deletions requested. -/
def mergeOptsFix : WorktreeMergeOptions :=
  { worktreePath := "/repo/wt", targetBranch := "main", strategy := .merge,
    deleteWorktreeAfterMerge := some true, deleteBranchAfterMerge := some true }

/-- The worktree being merged in the fixtures. -/
def mergeWorktreeFix : Worktree :=
  { path := "/repo/wt", head := "abc123", branch := some "feat",
    isMainWorktree := false, isLocked := false, prunable := false }

/-- An initial UI state with the merge dialog open and nothing pending. -/
def uiStateFix : MergeUiState :=
  { mergeDialogOpen := true, mergeConflicts := Option.none,
    pendingMergeOptions := Option.none }

/-- A conflicted merge result. -/
def conflictResultFix : WorktreeMergeResult :=
  { success := true, merged := false,
    conflicts := some [⟨"a.txt", ConflictType.content⟩] }

/-- A UI state holding a previously stored conflict result and snapshot. -/
def uiStatePending : MergeUiState :=
  { mergeDialogOpen := false
    mergeConflicts := some conflictResultFix
    pendingMergeOptions := some (mkCleanupSnapshot mergeOptsFix (some mergeWorktreeFix)) }

/-- The path contribution of the loop accumulator: the path of the record
`pushCurrent` would emit from it, if any. -/
def pathOf (c : PartialWorktree) : List Str :=
  match c.path with
  | some p => if p = [] then [] else [p]
  | Option.none => []

/-- The paths of the records a porcelain line list gives rise to: one per
line that begins with `worktree ` and has a non-empty remainder. -/
def emittedPaths (lines : List Str) : List Str :=
  lines.filterMap recordPath

/-! ## Helper lemmas -/

theorem pushCurrent_map_path (acc : List GitWorktree) (c : PartialWorktree) :
    (pushCurrent acc c).map (·.path) = acc.map (·.path) ++ pathOf c := by
  unfold pushCurrent pathOf
  cases hp : c.path with
  | none => simp
  | some p => by_cases h : p = [] <;> simp [h]

theorem pushCurrent_path_none (acc : List GitWorktree) (c : PartialWorktree)
    (h : c.path = Option.none) : pushCurrent acc c = acc := by
  unfold pushCurrent
  rw [h]

theorem setFirstMain_map_path (ws : List GitWorktree) :
    (setFirstMain ws).map (·.path) = ws.map (·.path) := by
  cases ws <;> rfl

theorem stepLine_not_worktree (acc : List GitWorktree) (c : PartialWorktree) (l : Str)
    (h : jsStartsWith l ("worktree ".toList) = false) :
    (stepLine (acc, c) l).1 = acc ∧ ((stepLine (acc, c) l).2).path = c.path := by
  unfold stepLine
  simp only [h, Bool.false_eq_true, if_false]
  split
  · exact ⟨rfl, rfl⟩
  · split
    · exact ⟨rfl, rfl⟩
    · split
      · exact ⟨rfl, rfl⟩
      · split
        · exact ⟨rfl, rfl⟩
        · split
          · exact ⟨rfl, rfl⟩
          · exact ⟨rfl, rfl⟩

theorem recordPath_not_worktree (l : Str)
    (h : jsStartsWith l ("worktree ".toList) = false) : recordPath l = Option.none := by
  unfold recordPath
  rw [h]
  rfl

theorem recordPath_worktree (l : Str)
    (h : jsStartsWith l ("worktree ".toList) = true) :
    (recordPath l).toList = pathOf (newPartial (l.drop 9)) := by
  unfold recordPath pathOf newPartial
  rw [h]
  by_cases he : (l.drop 9) = []
  · simp [he]
  · simp [he, List.isEmpty_iff]

/-- The loop invariant of `WorktreeService.list`: paths of the emitted
records are the accumulated paths, the pending record's path, then one path
per record-emitting line, in input order. -/
theorem fold_paths (lines : List Str) :
    ∀ (acc : List GitWorktree) (c : PartialWorktree),
    (pushCurrent (lines.foldl stepLine (acc, c)).1
        (lines.foldl stepLine (acc, c)).2).map (·.path) =
      acc.map (·.path) ++ pathOf c ++ emittedPaths lines := by
  induction lines with
  | nil =>
      intro acc c
      simp [emittedPaths, pushCurrent_map_path]
  | cons l ls ih =>
      intro acc c
      rw [List.foldl_cons]
      by_cases h : jsStartsWith l ("worktree ".toList) = true
      · have hstep : stepLine (acc, c) l = (pushCurrent acc c, newPartial (l.drop 9)) := by
          unfold stepLine
          rw [h]
          rfl
        rw [hstep, ih]
        rw [pushCurrent_map_path]
        have hrec : emittedPaths (l :: ls) =
            (recordPath l).toList ++ emittedPaths ls := by
          unfold emittedPaths
          cases hr : recordPath l <;> simp [List.filterMap_cons, hr]
        rw [hrec, recordPath_worktree l h]
        simp
      · have h' : jsStartsWith l ("worktree ".toList) = false := by
          simpa using h
        obtain ⟨ha, hp⟩ := stepLine_not_worktree acc c l h'
        have heta : stepLine (acc, c) l = ((stepLine (acc, c) l).1, (stepLine (acc, c) l).2) := rfl
        rw [heta, ih]
        have hpath : pathOf ((stepLine (acc, c) l).2) = pathOf c := by
          unfold pathOf
          rw [hp]
        have hrec : emittedPaths (l :: ls) = emittedPaths ls := by
          unfold emittedPaths
          simp [List.filterMap_cons, recordPath_not_worktree l h']
        rw [ha, hpath, hrec]

/-- Lines that do not start a record leave the accumulator and the pending
record's path untouched. -/
theorem fold_skip (lines : List Str) :
    ∀ (acc : List GitWorktree) (c : PartialWorktree),
    (∀ l ∈ lines, jsStartsWith l ("worktree ".toList) = false) →
    (lines.foldl stepLine (acc, c)).1 = acc ∧
    ((lines.foldl stepLine (acc, c)).2).path = c.path := by
  induction lines with
  | nil => intro acc c _; exact ⟨rfl, rfl⟩
  | cons l ls ih =>
      intro acc c hpre
      rw [List.foldl_cons]
      obtain ⟨ha, hp⟩ := stepLine_not_worktree acc c l (hpre l (List.mem_cons_self l ls))
      have heta : stepLine (acc, c) l = ((stepLine (acc, c) l).1, (stepLine (acc, c) l).2) := rfl
      rw [heta]
      obtain ⟨ha', hp'⟩ := ih (stepLine (acc, c) l).1 (stepLine (acc, c) l).2
        (fun x hx => hpre x (List.mem_cons_of_mem l hx))
      exact ⟨ha'.trans ha, hp'.trans hp⟩

/-- Two pending records without a path lead the rest of the loop to the
same output. -/
theorem foldOut_path_none (lines : List Str) :
    ∀ (acc : List GitWorktree) (c₁ c₂ : PartialWorktree),
    c₁.path = Option.none → c₂.path = Option.none →
    pushCurrent (lines.foldl stepLine (acc, c₁)).1 (lines.foldl stepLine (acc, c₁)).2 =
    pushCurrent (lines.foldl stepLine (acc, c₂)).1 (lines.foldl stepLine (acc, c₂)).2 := by
  induction lines with
  | nil =>
      intro acc c₁ c₂ h₁ h₂
      simp only [List.foldl_nil]
      rw [pushCurrent_path_none acc c₁ h₁, pushCurrent_path_none acc c₂ h₂]
  | cons l ls ih =>
      intro acc c₁ c₂ h₁ h₂
      simp only [List.foldl_cons]
      by_cases h : jsStartsWith l ("worktree ".toList) = true
      · have hstep₁ : stepLine (acc, c₁) l = (pushCurrent acc c₁, newPartial (l.drop 9)) := by
          unfold stepLine; rw [h]; rfl
        have hstep₂ : stepLine (acc, c₂) l = (pushCurrent acc c₂, newPartial (l.drop 9)) := by
          unfold stepLine; rw [h]; rfl
        rw [hstep₁, hstep₂, pushCurrent_path_none acc c₁ h₁, pushCurrent_path_none acc c₂ h₂]

      · have h' : jsStartsWith l ("worktree ".toList) = false := by simpa using h
        obtain ⟨ha₁, hp₁⟩ := stepLine_not_worktree acc c₁ l h'
        obtain ⟨ha₂, hp₂⟩ := stepLine_not_worktree acc c₂ l h'
        have heta₁ : stepLine (acc, c₁) l = ((stepLine (acc, c₁) l).1, (stepLine (acc, c₁) l).2) := rfl
        have heta₂ : stepLine (acc, c₂) l = ((stepLine (acc, c₂) l).1, (stepLine (acc, c₂) l).2) := rfl
        rw [heta₁, heta₂, ha₁, ha₂]
        exact ih acc _ _ (hp₁.trans h₁) (hp₂.trans h₂)

/-- Attribute lines arriving before any record-starting line are dropped:
they change neither the records emitted nor their fields. -/
theorem rawRecords_skip_start (preLines ls : List Str)
    (hpre : ∀ l ∈ preLines, jsStartsWith l ("worktree ".toList) = false) :
    rawRecords (preLines ++ ls) = rawRecords ls := by
  unfold rawRecords
  rw [List.foldl_append]
  obtain ⟨ha, hp⟩ := fold_skip preLines [] emptyPartial hpre
  have heta : preLines.foldl stepLine ([], emptyPartial) =
      ((preLines.foldl stepLine ([], emptyPartial)).1,
       (preLines.foldl stepLine ([], emptyPartial)).2) := rfl
  rw [heta, ha]
  exact foldOut_path_none ls [] _ emptyPartial hp rfl

theorem splitOnChar_cons (sep c : Char) (cs : Str) :
    splitOnChar sep (c :: cs) =
      if c = sep then [] :: splitOnChar sep cs
      else
        match splitOnChar sep cs with
        | r :: rs => (c :: r) :: rs
        | [] => [[c]] := rfl

theorem splitOnChar_no_sep (sep : Char) (s : Str) (h : sep ∉ s) :
    splitOnChar sep s = [s] := by
  induction s with
  | nil => rfl
  | cons c cs ih =>
      have hc : ¬ c = sep := fun hh => h (hh ▸ List.mem_cons_self c cs)
      have hcs : sep ∉ cs := fun hh => h (List.mem_cons_of_mem c hh)
      rw [splitOnChar_cons, ih hcs]
      simp [hc]

theorem splitOnChar_append_sep (sep : Char) (p s : Str) (hp : sep ∉ p) :
    splitOnChar sep (p ++ sep :: s) = p :: splitOnChar sep s := by
  induction p with
  | nil =>
      show splitOnChar sep (sep :: s) = [] :: splitOnChar sep s
      rw [splitOnChar_cons]
      simp
  | cons c cs ih =>
      have hc : ¬ c = sep := fun hh => hp (hh ▸ List.mem_cons_self c cs)
      have hcs : sep ∉ cs := fun hh => hp (List.mem_cons_of_mem c hh)
      show splitOnChar sep (c :: (cs ++ sep :: s)) = (c :: cs) :: splitOnChar sep s
      rw [splitOnChar_cons, ih hcs]
      simp [hc]

theorem replaceFirstGo_cons (pat rep : Str) (c : Char) (cs : Str) :
    replaceFirstGo pat rep (c :: cs) =
      if jsStartsWith (c :: cs) pat then rep ++ (c :: cs).drop pat.length
      else c :: replaceFirstGo pat rep cs := rfl

theorem replaceFirstGo_no_occurrence (pat rep s : Str)
    (h : containsSeq s pat = false) : replaceFirstGo pat rep s = s := by
  induction s with
  | nil => rfl
  | cons c cs ih =>
      have h' : (jsStartsWith (c :: cs) pat || containsSeq cs pat) = false := h
      rw [Bool.or_eq_false_iff] at h'
      unfold replaceFirstGo
      rw [h'.1, ih h'.2]
      rfl

/-! ## Claim theorems -/

/-- C10: list() emits one record per input line that begins with
`worktree ` and has a non-empty remainder, in input order; attribute lines
(`HEAD `, `branch `, `bare`, `locked`, `prunable`) occurring before the
first such line are silently discarded, and a `worktree ` line with an
empty path contributes no record. -/
theorem C10_list_emission (input : Str) (preLines ls : List Str)
    (hpre : ∀ l ∈ preLines, jsStartsWith l ("worktree ".toList) = false) :
    (WorktreeService.list input).map (·.path) = emittedPaths (splitOnChar '\n' input) ∧
    rawRecords (preLines ++ ls) = rawRecords ls := by
  constructor
  · show (setFirstMain (rawRecords (splitOnChar '\n' input))).map (·.path) = _
    rw [setFirstMain_map_path]
    show (pushCurrent ((splitOnChar '\n' input).foldl stepLine ([], emptyPartial)).1
        ((splitOnChar '\n' input).foldl stepLine ([], emptyPartial)).2).map (·.path) = _
    rw [fold_paths (splitOnChar '\n' input) [] emptyPartial]
    rfl
  · exact rawRecords_skip_start preLines ls hpre

/-- C10 witness: a listing with a stray HEAD line up front, a record-less
empty `worktree ` line, and two genuine records. -/
theorem C10_list_emission_witness :
    (WorktreeService.list
        ("HEAD h\nworktree /a\nworktree \nHEAD x\nworktree /b".toList)).map (·.path) =
      emittedPaths (splitOnChar '\n'
        ("HEAD h\nworktree /a\nworktree \nHEAD x\nworktree /b".toList)) ∧
    rawRecords (["HEAD h".toList, "bare".toList] ++ ["worktree /a".toList]) =
      rawRecords ["worktree /a".toList] :=
  C10_list_emission ("HEAD h\nworktree /a\nworktree \nHEAD x\nworktree /b".toList)
    ["HEAD h".toList, "bare".toList] ["worktree /a".toList] (by decide)

/-- C2 (amended): with at least one parsed record, the first entry
returned by list() always has isMainWorktree = true; and exactly one entry
has isMainWorktree = true provided no `bare` marker line falls within a
record after the first (as is the case in genuine `git worktree list
--porcelain` output, where `bare` can only describe the first-listed main
worktree). -/
theorem C2_first_main_unique (input : Str)
    (hne : WorktreeService.list input ≠ [])
    (hbare : ∀ w ∈ (rawRecords (splitOnChar '\n' input)).tail, w.isMainWorktree = false) :
    ((WorktreeService.list input).filter (·.isMainWorktree)).length = 1 ∧
    ∃ w rest, WorktreeService.list input = w :: rest ∧ w.isMainWorktree = true := by
  have hlist : WorktreeService.list input =
      setFirstMain (rawRecords (splitOnChar '\n' input)) := rfl
  cases hraw : rawRecords (splitOnChar '\n' input) with
  | nil =>
      exfalso
      apply hne
      rw [hlist, hraw]
      rfl
  | cons r rest =>
      rw [hlist, hraw]
      have htail : ∀ w ∈ rest, w.isMainWorktree = false := by
        intro w hw
        apply hbare
        rw [hraw]
        exact hw
      have hfilter : rest.filter (·.isMainWorktree) = [] := by
        rw [List.filter_eq_nil_iff]
        intro w hw
        simp [htail w hw]
      constructor
      · show (({ r with isMainWorktree := true } :: rest).filter (·.isMainWorktree)).length = 1
        rw [List.filter_cons]
        simp [hfilter]
      · exact ⟨{ r with isMainWorktree := true }, rest, rfl, rfl⟩

/-- C2 witness: a two-record listing whose `bare` marker sits in the first
record. -/
theorem C2_first_main_unique_witness :
    ((WorktreeService.list ("worktree /a\nbare\nworktree /b\nHEAD x".toList)).filter
        (·.isMainWorktree)).length = 1 ∧
    ∃ w rest,
      WorktreeService.list ("worktree /a\nbare\nworktree /b\nHEAD x".toList) = w :: rest ∧
      w.isMainWorktree = true :=
  C2_first_main_unique ("worktree /a\nbare\nworktree /b\nHEAD x".toList)
    (by decide) (by decide)

/-- C7 (amended): the branch stored by list() is the ref text after
`branch ` with the FIRST occurrence of "refs/heads/" (anywhere in the
string, JavaScript `replace` semantics) removed; in particular a leading
"refs/heads/" is stripped, and a ref not containing "refs/heads/" at all
is stored unchanged. -/
theorem C7_branch_ref_stripping (r : Str) (hr : ('\n' : Char) ∉ r) :
    (WorktreeService.list (("worktree /w\nbranch ".toList) ++ r)).map (·.branch) =
      [some (jsReplaceFirst r ("refs/heads/".toList) [])] ∧
    (jsStartsWith r ("refs/heads/".toList) = true →
      jsReplaceFirst r ("refs/heads/".toList) [] = r.drop 11) ∧
    (containsSeq r ("refs/heads/".toList) = false →
      jsReplaceFirst r ("refs/heads/".toList) [] = r) := by
  refine ⟨?_, ?_, ?_⟩
  · have h2 : ('\n' : Char) ∉ ("branch ".toList) ++ r := by
      intro hmem
      rcases List.mem_append.mp hmem with h | h
      · exact absurd h (by decide)
      · exact hr h
    have h1 : ("worktree /w\nbranch ".toList) ++ r =
        ("worktree /w".toList) ++ '\n' :: (("branch ".toList) ++ r) := rfl
    have hsplit : splitOnChar '\n' (("worktree /w\nbranch ".toList) ++ r) =
        ["worktree /w".toList, ("branch ".toList) ++ r] := by
      rw [h1, splitOnChar_append_sep '\n' _ _ (by decide),
          splitOnChar_no_sep '\n' _ h2]
    show (setFirstMain (rawRecords
        (splitOnChar '\n' (("worktree /w\nbranch ".toList) ++ r)))).map (·.branch) = _
    rw [hsplit]
    rfl
  · intro h
    unfold jsReplaceFirst
    rw [if_neg (by decide : ¬ (("refs/heads/".toList) = ([] : Str)))]
    cases r with
    | nil => exact absurd h (by decide)
    | cons c cs =>
        rw [replaceFirstGo_cons, if_pos h]
        rfl
  · intro h
    unfold jsReplaceFirst
    rw [if_neg (by decide : ¬ (("refs/heads/".toList) = ([] : Str)))]
    exact replaceFirstGo_no_occurrence _ _ _ h

/-- C7 witness: a genuine porcelain branch ref is stripped of its leading
refs/heads/, and a ref that nowhere contains refs/heads/ is kept. -/
theorem C7_branch_ref_stripping_witness :
    (WorktreeService.list
        (("worktree /w\nbranch ".toList) ++ "refs/heads/feat".toList)).map (·.branch) =
      [some (jsReplaceFirst ("refs/heads/feat".toList) ("refs/heads/".toList) [])] ∧
    jsReplaceFirst ("refs/heads/feat".toList) ("refs/heads/".toList) [] =
      ("refs/heads/feat".toList).drop 11 ∧
    jsReplaceFirst ("plain".toList) ("refs/heads/".toList) [] = "plain".toList :=
  ⟨(C7_branch_ref_stripping ("refs/heads/feat".toList) (by decide)).1,
   (C7_branch_ref_stripping ("refs/heads/feat".toList) (by decide)).2.1 (by decide),
   (C7_branch_ref_stripping ("plain".toList) (by decide)).2.2 (by decide)⟩

/-- C7 counterexample: for the ref `a/refs/heads/b`, which does NOT begin
with refs/heads/, the stored branch is `a/b` rather than the unchanged
ref, because JavaScript `replace` removes the first occurrence anywhere,
not only a leading one. -/
theorem C7_counterexample :
    (WorktreeService.list ("worktree /w\nbranch a/refs/heads/b".toList)).map (·.branch) =
      [some ("a/b".toList)] ∧
    jsStartsWith ("a/refs/heads/b".toList) ("refs/heads/".toList) = false ∧
    ¬ ("a/b".toList = "a/refs/heads/b".toList) := by
  decide

/-- C2 counterexample: a `bare` line inside the second record marks that
record as main as well, so two entries of the returned array have
isMainWorktree = true — the claimed "exactly one regardless of where the
bare marker appears" fails. -/
theorem C2_counterexample :
    ((WorktreeService.list ("worktree /a\nworktree /b\nbare".toList)).filter
        (·.isMainWorktree)).length = 2 ∧
    ¬ ((WorktreeService.list ("worktree /a\nworktree /b\nbare".toList)).filter
        (·.isMainWorktree)).length = 1 := by
  decide

/-- C4: remove(options) first runs `worktree remove [--force] path`; a
follow-up forced branch deletion `branch -D` runs if and only if both
deleteBranch and a truthy branch name are set; and when the branch
deletion fails after the worktree removal succeeded, the error propagates
while the issued command list is exactly the two commands — the removal is
not rolled back. -/
theorem C4_remove_branch_deletion (run : List String → Except String Unit)
    (opts : WorktreeRemoveOptions) :
    (WorktreeService.remove run opts).2.head? = some (removeArgs opts.path opts.force) ∧
    (run (removeArgs opts.path opts.force) = .ok () →
      (WorktreeService.remove run opts).2 =
        (if opts.deleteBranch.getD false && jsTruthyStr opts.branch then
          [removeArgs opts.path opts.force, ["branch", "-D", opts.branch.getD ""]]
        else [removeArgs opts.path opts.force]) ∧
      (WorktreeService.remove run opts).1 =
        (if opts.deleteBranch.getD false && jsTruthyStr opts.branch then
          run ["branch", "-D", opts.branch.getD ""]
        else .ok ())) := by
  cases hrun : run (removeArgs opts.path opts.force) with
  | error e =>
      constructor
      · simp [WorktreeService.remove, hrun]
      · intro hok
        simp at hok
  | ok u =>
      cases u
      by_cases hdel : (opts.deleteBranch.getD false && jsTruthyStr opts.branch) = true
      · constructor
        · simp [WorktreeService.remove, hrun, hdel]
        · intro _
          constructor <;> simp [WorktreeService.remove, hrun, hdel]
      · have hdel' : (opts.deleteBranch.getD false && jsTruthyStr opts.branch) = false := by
          simpa using hdel
        constructor
        · simp [WorktreeService.remove, hrun, hdel']
        · intro _
          constructor <;> simp [WorktreeService.remove, hrun, hdel']

/-- C4 witness: with force, deleteBranch and branch "feat" all set, and a
runner whose branch deletion fails, the issued commands are exactly the
worktree removal followed by the branch deletion, and the error
propagates. -/
theorem C4_remove_branch_deletion_witness :
    (WorktreeService.remove runBranchFails removeOptsFix).2.head? =
      some (removeArgs removeOptsFix.path removeOptsFix.force) ∧
    (WorktreeService.remove runBranchFails removeOptsFix).2 =
      [["worktree", "remove", "--force", "/repo/wt"], ["branch", "-D", "feat"]] ∧
    (WorktreeService.remove runBranchFails removeOptsFix).1 =
      .error "branch deletion failed" := by
  have h := C4_remove_branch_deletion runBranchFails removeOptsFix
  have h2 := h.2 (by rfl)
  refine ⟨h.1, ?_, ?_⟩
  · rw [h2.1]
    rfl
  · rw [h2.2]
    rfl

/-- C5: with no repository selected, handleMerge returns immediately with
success = false, merged = false and the error string "No repository
selected", and issues no backend merge call. -/
theorem C5_no_repo_selected (mutate : MergeCall → WorktreeMergeResult)
    (options : WorktreeMergeOptions) :
    handleMerge Option.none mutate options =
      ({ success := false, merged := false, error := some "No repository selected" }, []) :=
  rfl

/-- C6: the conflict-content blob lookup returns the empty string whenever
the underlying `git show` produced no content: the spawn errored, the exit
code was non-zero (or null), or the output was empty. -/
theorem C6_absent_stage_empty (detect : List Nat → String)
    (spawn : String → String → SpawnOutcome) (workdir ref : String)
    (h : spawn workdir ref = .errored ∨
      ∃ code chunks, spawn workdir ref = .closed code chunks ∧
        (code ≠ some 0 ∨ chunks.flatten = [])) :
    gitShow detect spawn workdir ref = "" := by
  have hb : gitShowBuffer spawn workdir ref = [] := by
    unfold gitShowBuffer
    rcases h with h | ⟨code, chunks, h, hcc⟩
    · rw [h]
    · rw [h]
      rcases hcc with hc | hf
      · have : (code != some 0) = true := by simpa using hc
        simp [this]
      · cases he : chunks.isEmpty
        · simp [he, hf]
        · simp [he]
  unfold gitShow decodeBuffer
  rw [hb]
  rfl

/-- C6 witness: a spawn that always fires the error event yields "". -/
theorem C6_absent_stage_empty_witness :
    gitShow detectFix spawnErr "/repo" ":1:conflicted.txt" = "" :=
  C6_absent_stage_empty detectFix spawnErr "/repo" ":1:conflicted.txt" (Or.inl rfl)

/-- C8: gitShowBuffer and gitShow are total at their interface: every
spawn outcome resolves, and spawn failure, a non-zero (or null) exit code,
and empty output all resolve to the empty buffer/string — exactly the
value produced by a successful `git show` with empty output, so a failed
lookup is indistinguishable from an empty blob. -/
theorem C8_failure_is_empty_blob (detect : List Nat → String)
    (spawn : String → String → SpawnOutcome) (workdir ref : String)
    (h : spawn workdir ref = .errored ∨
      ∃ code chunks, spawn workdir ref = .closed code chunks ∧
        (code ≠ some 0 ∨ chunks = [])) :
    gitShowBuffer spawn workdir ref = [] ∧
    gitShowBuffer spawn workdir ref =
      gitShowBuffer (fun _ _ => .closed (some 0) []) workdir ref ∧
    gitShow detect spawn workdir ref =
      gitShow detect (fun _ _ => .closed (some 0) []) workdir ref := by
  have hb : gitShowBuffer spawn workdir ref = [] := by
    unfold gitShowBuffer
    rcases h with h | ⟨code, chunks, h, hcc⟩
    · rw [h]
    · rw [h]
      rcases hcc with hc | hf
      · have : (code != some 0) = true := by simpa using hc
        simp [this]
      · simp [hf]
  refine ⟨hb, hb.trans rfl, ?_⟩
  unfold gitShow
  rw [hb]
  rfl

/-- C8 witness: the error-event outcome is indistinguishable from a
successful empty `git show`. -/
theorem C8_failure_is_empty_blob_witness :
    gitShowBuffer spawnErr "/repo" "HEAD:f" = [] ∧
    gitShowBuffer spawnErr "/repo" "HEAD:f" =
      gitShowBuffer (fun _ _ => .closed (some 0) []) "/repo" "HEAD:f" ∧
    gitShow detectFix spawnErr "/repo" "HEAD:f" =
      gitShow detectFix (fun _ _ => .closed (some 0) []) "/repo" "HEAD:f" :=
  C8_failure_is_empty_blob detectFix spawnErr "/repo" "HEAD:f" (Or.inl rfl)

/-- C9: when the continueMerge backend reports success = false, the
UI-held merge state is returned unchanged: the stored conflict result and
the pending cleanup-options snapshot are retained exactly as they were. -/
theorem C9_failure_preserves_state (selectedRepo : Option String)
    (bk : ContinueMergeCall → WorktreeMergeResult) (message : String)
    (st : MergeUiState)
    (h : (bk ⟨selectedRepo.getD "", message, st.pendingMergeOptions⟩).success = false) :
    (handleCompleteMerge selectedRepo bk message st).1 = st ∧
    (handleCompleteMerge selectedRepo bk message st).1.mergeConflicts = st.mergeConflicts ∧
    (handleCompleteMerge selectedRepo bk message st).1.pendingMergeOptions =
      st.pendingMergeOptions := by
  have hst : (handleCompleteMerge selectedRepo bk message st).1 = st := by
    unfold handleCompleteMerge
    cases htruthy : jsTruthyStr selectedRepo
    · simp [htruthy]
    · simp only [htruthy, Bool.not_true, Bool.false_eq_true, if_false]
      rw [h]
      rfl
  exact ⟨hst, by rw [hst], by rw [hst]⟩

/-- C9 witness: a failing backend leaves a pending conflict state
untouched. -/
theorem C9_failure_preserves_state_witness :
    (handleCompleteMerge (some "/repo") bkFail "merge msg" uiStatePending).1 =
      uiStatePending :=
  (C9_failure_preserves_state (some "/repo") bkFail "merge msg" uiStatePending
    (by decide)).1

/-- C3: the cleanupOptions argument passed to the continueMerge backend is
exactly the snapshot {worktreePath, sourceBranch, deleteWorktreeAfterMerge,
deleteBranchAfterMerge} captured by handleMergeConflicts from the original
merge request (and the worktree being merged) when conflicts were first
reported, not a value re-read from later state. -/
theorem C3_snapshot_passed (mergeWorktree : Option Worktree)
    (result : WorktreeMergeResult) (options : WorktreeMergeOptions)
    (st : MergeUiState) (selectedRepo : Option String)
    (bk : ContinueMergeCall → WorktreeMergeResult) (message : String)
    (hrepo : jsTruthyStr selectedRepo = true) :
    (handleMergeConflicts mergeWorktree result options st).1.pendingMergeOptions =
      some (mkCleanupSnapshot options mergeWorktree) ∧
    ((handleCompleteMerge selectedRepo bk message
        (handleMergeConflicts mergeWorktree result options st).1).2).map
      (·.cleanupOptions) = [some (mkCleanupSnapshot options mergeWorktree)] := by
  refine ⟨rfl, ?_⟩
  unfold handleCompleteMerge
  simp only [hrepo, Bool.not_true, Bool.false_eq_true, if_false]
  cases hsucc : (bk ⟨selectedRepo.getD "", message,
      (handleMergeConflicts mergeWorktree result options st).1.pendingMergeOptions⟩).success
  · simp [hsucc, handleMergeConflicts]
  · simp [hsucc, handleMergeConflicts]

/-- C3 witness: the snapshot built from the fixture request and worktree
is what the continueMerge backend receives. -/
theorem C3_snapshot_passed_witness :
    (handleMergeConflicts (some mergeWorktreeFix) conflictResultFix mergeOptsFix
        uiStateFix).1.pendingMergeOptions =
      some (mkCleanupSnapshot mergeOptsFix (some mergeWorktreeFix)) ∧
    ((handleCompleteMerge (some "/repo") bkOk "done"
        (handleMergeConflicts (some mergeWorktreeFix) conflictResultFix mergeOptsFix
          uiStateFix).1).2).map (·.cleanupOptions) =
      [some (mkCleanupSnapshot mergeOptsFix (some mergeWorktreeFix))] :=
  C3_snapshot_passed (some mergeWorktreeFix) conflictResultFix mergeOptsFix
    uiStateFix (some "/repo") bkOk "done" (by decide)

/-- C1: when a merge attempt reports unresolved conflicts, the engine
issues no worktree or branch deletion even when deleteWorktreeAfterMerge /
deleteBranchAfterMerge were requested; the renderer conflict handler only
records the cleanup-options snapshot and issues no git operation; and the
continueMerge engine performs deletions only on a call whose result has
merged = true. -/
theorem C1_no_deletion_on_conflicts (outcome : MergeCmdOutcome)
    (req : WorktreeMergeOptions) (sourceBranch : String)
    (mergeWorktree : Option Worktree) (st : MergeUiState)
    (h : (mergeEngine outcome req sourceBranch).1.conflicts.getD [] ≠ []) :
    (mergeEngine outcome req sourceBranch).2 = [] ∧
    (handleMergeConflicts mergeWorktree (mergeEngine outcome req sourceBranch).1
        req st).2 = [] ∧
    (handleMergeConflicts mergeWorktree (mergeEngine outcome req sourceBranch).1
        req st).1.pendingMergeOptions = some (mkCleanupSnapshot req mergeWorktree) ∧
    (∀ (contOutcome : ContinueOutcome)
        (cleanup : Option WorktreeMergeCleanupOptions),
      (continueMergeEngine contOutcome cleanup).1.merged = false →
      (continueMergeEngine contOutcome cleanup).2 = []) := by
  refine ⟨?_, rfl, rfl, ?_⟩
  · cases outcome with
    | conflicted files => rfl
    | clean hash => exact absurd rfl h
    | failed err => exact absurd rfl h
  · intro contOutcome cleanup hm
    cases contOutcome with
    | committed hash => exact absurd hm (by simp [continueMergeEngine])
    | stillConflicted files => rfl
    | failed err => rfl

/-- C1 witness: a conflicted merge with both deletions requested issues no
git operation, stores the snapshot, and a still-conflicted continueMerge
also issues none. -/
theorem C1_no_deletion_on_conflicts_witness :
    (mergeEngine (.conflicted [⟨"a.txt", ConflictType.content⟩]) mergeOptsFix "feat").2 = [] ∧
    (handleMergeConflicts (some mergeWorktreeFix)
        (mergeEngine (.conflicted [⟨"a.txt", ConflictType.content⟩]) mergeOptsFix "feat").1
        mergeOptsFix uiStateFix).2 = [] ∧
    (handleMergeConflicts (some mergeWorktreeFix)
        (mergeEngine (.conflicted [⟨"a.txt", ConflictType.content⟩]) mergeOptsFix "feat").1
        mergeOptsFix uiStateFix).1.pendingMergeOptions =
      some (mkCleanupSnapshot mergeOptsFix (some mergeWorktreeFix)) ∧
    (continueMergeEngine (.stillConflicted [⟨"a.txt", ConflictType.content⟩])
        (some (mkCleanupSnapshot mergeOptsFix (some mergeWorktreeFix)))).2 = [] := by
  have h := C1_no_deletion_on_conflicts (.conflicted [⟨"a.txt", ConflictType.content⟩])
    mergeOptsFix "feat" (some mergeWorktreeFix) uiStateFix (by decide)
  exact ⟨h.1, h.2.1, h.2.2.1, h.2.2.2 (.stillConflicted [⟨"a.txt", ConflictType.content⟩])
    (some (mkCleanupSnapshot mergeOptsFix (some mergeWorktreeFix))) (by decide)⟩
